import Mathlib

/-
Verification development for the context-aware command interpretation engine
of the persistent-memory repository.

The embedding below translates, from the TypeScript source:
  - the rule / context / action data model (src/types/prompting-rules.ts),
  - CommandParser: construction, parse, matchRules, getBestMatch and the
    action executors (src/services/command-parser.ts),
  - the pure context transitions of ContextEngine: updateTodoContext,
    recordCommand, inferTaskState, inferActivity, autoInfer
    (src/services/context-engine.ts),
  - RulesClient.createDefaultRules, as the default bootstrap rule data
    (src/services/rules-client.ts; the Airtable persistence around it is I/O
    plumbing and is not part of the embedded data),
  - the rule-dispatch section of MemoryClient.processCommand
    (src/services/memory-client.ts); the asynchronous context collection is
    I/O, so processCommand is parameterized by the collected context and then
    applies the autoInfer and recordCommand steps exactly as the source does.

JavaScript specifics kept by the embedding: stable sort by descending
priority, truthiness tests (empty string, undefined and false are falsy),
String(x or empty) stringification, and regular-expression compilation that
can fail; the regex engine is a parameter, with compile returning none where
the JS RegExp constructor would throw, mirroring the try/catch in
compareValues. All functions are total, so no exception can escape; the
executor catch block is therefore unreachable.
-/

/-! ## String helpers (kernel-reducible models of the JS string operations) -/

/-- ASCII lowercasing, as JS toLowerCase behaves on the ASCII strings this
system uses (Char.toLower lowercases exactly the ASCII uppercase range). -/
def jsToLower (s : String) : String := ⟨s.data.map Char.toLower⟩

/-- JS String.prototype.trim: drop whitespace from both ends. -/
def jsTrim (s : String) : String :=
  ⟨((s.data.dropWhile Char.isWhitespace).reverse.dropWhile Char.isWhitespace).reverse⟩

/-- Split a character list at whitespace; empty chunks arise between
consecutive whitespace characters and are filtered by splitWsJS. -/
def wordsAux : List Char → List Char → List (List Char)
  | [], acc => [acc.reverse]
  | c :: rest, acc =>
    if c.isWhitespace then acc.reverse :: wordsAux rest [] else wordsAux rest (c :: acc)

/-- JS split on the regex for one-or-more whitespace, as applied to an
already-trimmed string: the empty string yields a singleton list holding the
empty string, otherwise the whitespace-separated words. -/
def splitWsJS (s : String) : List String :=
  if s = "" then [""]
  else ((wordsAux s.data []).map (fun l => String.mk l)).filter (fun t => t ≠ "")

/-- Does the first list start the second one. -/
def listLeads : List Char → List Char → Bool
  | [], _ => true
  | _ :: _, [] => false
  | a :: as, b :: bs => a == b && listLeads as bs

/-- Does the first list occur contiguously inside the second one. -/
def listHasRun (needle : List Char) : List Char → Bool
  | [] => needle.isEmpty
  | b :: bs => listLeads needle (b :: bs) || listHasRun needle bs

/-- JS String.prototype.includes. -/
def strIncludes (hay needle : String) : Bool := listHasRun needle.data hay.data

/-! ## Data model (src/types/prompting-rules.ts) -/

/-- TaskState: the closed task-state enumeration. -/
inductive TaskState where
  | ready_to_proceed
  | blocked
  | waiting_for_user
  | in_progress
  | completed
  | paused
deriving DecidableEq

/-- The literal string of a task state, as stored in the TS union type. -/
def TaskState.str : TaskState → String
  | .ready_to_proceed => "ready_to_proceed"
  | .blocked => "blocked"
  | .waiting_for_user => "waiting_for_user"
  | .in_progress => "in_progress"
  | .completed => "completed"
  | .paused => "paused"

/-- ActivityType: the closed activity enumeration. -/
inductive ActivityType where
  | coding
  | documenting
  | debugging
  | researching
  | reviewing
  | testing
deriving DecidableEq

/-- The literal string of an activity, as stored in the TS union type. -/
def ActivityType.str : ActivityType → String
  | .coding => "coding"
  | .documenting => "documenting"
  | .debugging => "debugging"
  | .researching => "researching"
  | .reviewing => "reviewing"
  | .testing => "testing"

/-- A loosely-typed JS value, as stored under dynamic context keys or read by
property access; vObjArr n stands for an array of n plain objects and vObj
for a plain object (both only matter through JS stringification). -/
inductive JSValue where
  | vUndefined
  | vStr (s : String)
  | vBool (b : Bool)
  | vNum (n : Int)
  | vStrList (l : List String)
  | vObjArr (n : Nat)
  | vObj
deriving DecidableEq

/-- JS falsiness: undefined, the empty string, false and 0 are falsy; arrays
and objects are always truthy. -/
def JSValue.isFalsy : JSValue → Bool
  | .vUndefined => true
  | .vStr s => s == ""
  | .vBool b => !b
  | .vNum n => n == 0
  | .vStrList _ => false
  | .vObjArr _ => false
  | .vObj => false

/-- JS String(v) stringification. -/
def JSValue.str : JSValue → String
  | .vUndefined => "undefined"
  | .vStr s => s
  | .vBool b => cond b "true" "false"
  | .vNum n => toString n
  | .vStrList l => String.intercalate "," l
  | .vObjArr n => String.intercalate "," (List.replicate n "[object Object]")
  | .vObj => "[object Object]"

/-- The expression String(actual or empty string) from compareValues: a falsy
value stringifies to the empty string, anything else via String(). -/
def jsOrEmptyStr (v : JSValue) : String := if v.isFalsy then "" else v.str

/-- A todo item as consumed by ContextEngine.updateTodoContext, which only
reads the status field of each (otherwise untyped) todo object. -/
structure Todo where
  status : String
  content : String := ""
deriving DecidableEq

/-- PreferenceAction settings (the fields the source uses or seeds). -/
structure PreferenceSettings where
  verbosity : Option String := none
  use_emojis : Option Bool := none
  code_comments : Option String := none
  error_detail_level : Option String := none
  proactive_suggestions : Option Bool := none
  confirm_destructive_actions : Option Bool := none
deriving DecidableEq

/-- The loose options record carried by behavior, macro and workflow actions
(the executor only ever reads the verbosity field and passes the record
through into result metadata). -/
structure RuleOptions where
  verbosity : Option String := none
  include_stats : Option Bool := none
  show_related_tasks : Option Bool := none
deriving DecidableEq

/-- One handler entry of a ContextualExecution action. The source field named
then is spelled thenStep here because then is a Lean keyword; the executor
never reads it. -/
structure Handler where
  response : String
  thenStep : Option String := none
  details : Option String := none
  show_progress : Option Bool := none
  show_summary : Option Bool := none
deriving DecidableEq

/-- RuleAction: the tagged action payload. The handlers map of a
contextual-execution action is an association list keyed by task-state
strings (JS object property order is insertion order; lookup is by key).
The otherAction case stands for a payload whose type tag is none of the
defined variants, reaching the default branch of executeAction. -/
inductive RuleAction where
  | contextualExecution (handlers : List (String × Handler))
  | behaviorAct (steps : List String) (options : Option RuleOptions)
  | macAction (steps : List String) (options : Option RuleOptions)
  | preferenceAct (settings : PreferenceSettings)
  | workflowAct (steps : List String) (options : Option RuleOptions)
  | otherAction (typeName : String)
deriving DecidableEq

/-- ContextPattern: a predicate over the context; type is the kind
discriminator string, value the expected string, operator defaults to
equals when absent (or empty, which is falsy). -/
structure ContextPattern where
  type : String
  value : String
  operator : Option String := none
deriving DecidableEq

/-- PromptingRule. The persistence bookkeeping fields (examples, createdAt,
updatedAt) are never read by the parser or executor and are omitted. -/
structure PromptingRule where
  id : Option Int := none
  userId : String
  ruleType : String
  category : Option String := none
  trigger : String
  contextPatterns : Option (List ContextPattern) := none
  action : RuleAction
  priority : Int
  isActive : Bool
  description : Option String := none
deriving DecidableEq

/-- Context: the mutable context snapshot. extra is the open extension map
for custom keys (JS index-signature properties); absent keys are undefined. -/
structure Context where
  taskState : TaskState
  currentActivity : Option ActivityType := none
  todoList : Option (List Todo) := none
  activeTodos : Option (List Todo) := none
  completedTodos : Option (List Todo) := none
  fileTypes : Option (List String) := none
  hasUncommittedChanges : Option Bool := none
  lastCommand : Option String := none
  commandHistory : Option (List String) := none
  recentCommands : Option (List String) := none
  preferences : Option PreferenceSettings := none
  extra : String → JSValue := fun _ => .vUndefined

/-- An optional string as a JS value (undefined when absent). -/
def optStrVal : Option String → JSValue
  | none => .vUndefined
  | some s => .vStr s

/-- An optional object list as a JS value. -/
def optObjArrVal {α : Type} : Option (List α) → JSValue
  | none => .vUndefined
  | some l => .vObjArr l.length

/-- An optional string list as a JS value. -/
def optStrListVal : Option (List String) → JSValue
  | none => .vUndefined
  | some l => .vStrList l

/-- JS dynamic property access context[key]: declared fields are reached by
their field names, anything else lands in the open extension map. -/
def Context.lookup (c : Context) (key : String) : JSValue :=
  if key = "taskState" then .vStr c.taskState.str
  else if key = "currentActivity" then optStrVal (c.currentActivity.map ActivityType.str)
  else if key = "todoList" then optObjArrVal c.todoList
  else if key = "activeTodos" then optObjArrVal c.activeTodos
  else if key = "completedTodos" then optObjArrVal c.completedTodos
  else if key = "fileTypes" then optStrListVal c.fileTypes
  else if key = "hasUncommittedChanges" then
    (match c.hasUncommittedChanges with
     | none => .vUndefined
     | some b => .vBool b)
  else if key = "lastCommand" then optStrVal c.lastCommand
  else if key = "commandHistory" then optStrListVal c.commandHistory
  else if key = "recentCommands" then optStrListVal c.recentCommands
  else if key = "preferences" then
    (match c.preferences with
     | none => .vUndefined
     | some _ => .vObj)
  else c.extra key

/-- ParsedCommand. -/
structure ParsedCommand where
  raw : String
  trigger : String
  tokens : List String
  arguments : Option (List String) := none
  isShorthand : Bool
deriving DecidableEq

/-- Result metadata record (the keys the executors ever set). -/
structure Metadata where
  taskState : Option String := none
  handlerUsed : Option String := none
  showProgress : Option Bool := none
  showSummary : Option Bool := none
  verbosity : Option String := none
  options : Option RuleOptions := none
deriving DecidableEq

/-- ActionResult. -/
structure ActionResult where
  success : Bool
  response : Option String := none
  actions : Option (List String) := none
  nextSteps : Option (List String) := none
  error : Option String := none
  metadata : Option Metadata := none
deriving DecidableEq

/-! ## Regex engine boundary

compareValues compiles the expected string with the JS RegExp constructor
inside try/catch: a compile failure (invalid regex) is modeled by compile
returning none, success returns the compiled test function. The development
is parameterized over this engine; concrete engines below implement the JS
behavior on the literal patterns the theorems exercise. -/

structure RegexEngine where
  compile : String → Option (String → Bool)

/-- An engine on which every compilation fails; usable wherever the code
path under study never reaches the matches operator. -/
def noRegex : RegexEngine := ⟨fun _ => none⟩

/-- The JS RegExp behavior on the two literal patterns exercised by the
theorems: the pattern consisting of one opening parenthesis is invalid (the
constructor throws, hence none) and the pattern true matches any string
containing true as a substring. -/
def jsRegexLite : RegexEngine :=
  ⟨fun pat =>
    if pat = "true" then some (fun s => strIncludes s "true") else none⟩

/-! ## CommandParser (src/services/command-parser.ts) -/

/-- compareValues(actual, expected, operator): both sides lowercased, then
dispatch on the operator string; unknown operators yield false. -/
def compareValues (re : RegexEngine) (actual : JSValue) (expected : String)
    (operator : String) : Bool :=
  let actualStr := jsToLower (jsOrEmptyStr actual)
  let expectedStr := jsToLower expected
  if operator == "equals" then actualStr == expectedStr
  else if operator == "contains" then strIncludes actualStr expectedStr
  else if operator == "matches" then
    match re.compile expectedStr with
    | some test => test actualStr
    | none => false
  else if operator == "not_equals" then actualStr != expectedStr
  else false

/-- The expression pattern.operator or equals: an absent or empty (falsy)
operator defaults to equals. -/
def effectiveOperator (op : Option String) : String :=
  match op with
  | none => "equals"
  | some s => if s == "" then "equals" else s

/-- matchesContextPattern: dispatch on the pattern kind string. Note that the
event branch reads context[pattern.value] and compares it against the literal
string true, while the custom branch reads context[pattern.type], that is
the literal key custom, and compares it against pattern.value. -/
def matchesContextPattern (re : RegexEngine) (pattern : ContextPattern)
    (context : Context) : Bool :=
  let operator := effectiveOperator pattern.operator
  if pattern.type == "task_state" then
    compareValues re (.vStr context.taskState.str) pattern.value operator
  else if pattern.type == "activity" then
    compareValues re (optStrVal (context.currentActivity.map ActivityType.str))
      pattern.value operator
  else if pattern.type == "file_type" then
    match context.fileTypes with
    | none => false
    | some fts => fts.any (fun ft => compareValues re (.vStr ft) pattern.value operator)
  else if pattern.type == "event" then
    compareValues re (context.lookup pattern.value) "true" operator
  else if pattern.type == "custom" then
    compareValues re (context.lookup pattern.type) pattern.value operator
  else false

/-- The candidate filter of matchRules: a rule with absent or empty
contextPatterns always matches, otherwise every pattern must hold. -/
def ruleMatches (re : RegexEngine) (rule : PromptingRule) (context : Context) : Bool :=
  match rule.contextPatterns with
  | none => true
  | some ps =>
    if ps.length == 0 then true
    else ps.all (fun pattern => matchesContextPattern re pattern context)

/-- The sort relation of the JS comparator (a, b) => b.priority - a.priority:
descending priority. -/
def ruleLE (a b : PromptingRule) : Prop := b.priority ≤ a.priority

instance : DecidableRel ruleLE :=
  fun a b => inferInstanceAs (Decidable (b.priority ≤ a.priority))

instance : IsTotal PromptingRule ruleLE :=
  ⟨fun a b => le_total b.priority a.priority⟩

instance : IsTrans PromptingRule ruleLE :=
  ⟨fun _ _ _ h1 h2 => le_trans h2 h1⟩

/-- JS Array.prototype.sort is a stable sort; with the comparator above it is
the stable descending-priority sort, which insertion sort with ruleLE
computes (stable sorts under a total preorder agree on all inputs). -/
def sortByPriorityDesc (l : List PromptingRule) : List PromptingRule :=
  l.insertionSort ruleLE

/-- The parser state: the active rules, sorted by descending priority by the
constructor. The trigger index (commandMap) is a derived view, modeled by
commandMapGet below: building the map inserts each rule in rule order into
the bucket of its lowercased trigger, so a bucket is exactly the in-order
filter of the rules by that trigger, and absent keys give the empty bucket
(the source appends a fallback empty list at every use site). -/
structure CommandParser where
  rules : List PromptingRule

/-- The constructor (and updateRules): keep active rules, sort by descending
priority, rebuild the index. -/
def CommandParser.ofRules (loaded : List PromptingRule) : CommandParser :=
  ⟨sortByPriorityDesc (loaded.filter (fun r => r.isActive))⟩

/-- commandMap.get(trigger) with the empty-list fallback. -/
def commandMapGet (p : CommandParser) (trigger : String) : List PromptingRule :=
  p.rules.filter (fun r => jsToLower r.trigger == trigger)

/-- parse(input): trim, split on whitespace, lowercase the first token. -/
def CommandParser.parse (p : CommandParser) (input : String) : ParsedCommand :=
  let trimmed := jsTrim input
  let tokens := splitWsJS trimmed
  let trigger := jsToLower (tokens.headD "")
  let args := tokens.drop 1
  { raw := input
    trigger := trigger
    tokens := tokens
    arguments := if args.length > 0 then some args else none
    isShorthand := !(commandMapGet p trigger).isEmpty }

/-- matchRules(parsed, context): candidates by trigger, filtered by the
context patterns, re-sorted by descending priority. -/
def CommandParser.matchRules (p : CommandParser) (re : RegexEngine)
    (parsed : ParsedCommand) (context : Context) : List PromptingRule :=
  sortByPriorityDesc
    ((commandMapGet p parsed.trigger).filter (fun rule => ruleMatches re rule context))

/-- getBestMatch(parsed, context): the first match, or none. -/
def CommandParser.getBestMatch (p : CommandParser) (re : RegexEngine)
    (parsed : ParsedCommand) (context : Context) : Option PromptingRule :=
  match p.matchRules re parsed context with
  | [] => none
  | rule :: _ => some rule

/-- explainUserAction. -/
def explainUserAction (_context : Context) : String :=
  "Please complete the manual steps as described above and confirm when done."

/-- explainUserActionRequired. -/
def explainUserActionRequired (context : Context) : String :=
  "I cannot proceed automatically. User action is required. " ++ explainUserAction context

/-- explainBlockingReason; the last-command echo is guarded by JS truthiness
of the optional string. -/
def explainBlockingReason (context : Context) : String :=
  "I am currently blocked. " ++
    (match context.lastCommand with
     | some c => if c == "" then "" else "Last command: \"" ++ c ++ "\". "
     | none => "") ++
    "Please provide the required input or action to proceed."

/-- generateResponse: the fixed template table, with unknown template names
passing through verbatim. Every table entry is a nonempty string, so the JS
fallback (table value or template) fires exactly on unknown names. -/
def generateResponse (template : String) (context : Context) : String :=
  if template == "execute_next_logical_step" then "Executing the next logical step..."
  else if template == "explain_blocking_reason" then explainBlockingReason context
  else if template == "cannot_proceed_user_action_required" then
    explainUserActionRequired context
  else if template == "acknowledge_already_complete" then "This task is already complete."
  else if template == "explain_what_user_must_do" then explainUserAction context
  else template

/-- Association lookup on a handlers object: JS property access by key. -/
def lookupHandler : List (String × Handler) → String → Option Handler
  | [], _ => none
  | (k, h) :: t, key => if k == key then some h else lookupHandler t key

/-- executeCommandAction, in state-passing form: the method receives the
parser (this) and the context and mutates neither, so both are threaded
through and returned. The task-state key is context.taskState with the JS
or-fallback to ready_to_proceed (which can only fire on a falsy, that is
empty, state string). The handler lookup is strictly by that key. -/
def executeCommandAction (p : CommandParser) (handlers : List (String × Handler))
    (context : Context) : ActionResult × CommandParser × Context :=
  let taskState :=
    if context.taskState.str == "" then "ready_to_proceed" else context.taskState.str
  match lookupHandler handlers taskState with
  | none =>
    ({ success := false, error := some ("No handler for task state: " ++ taskState) },
      p, context)
  | some handler =>
    let response := generateResponse handler.response context
    let response :=
      match handler.details with
      | some d =>
        if d == "" then response
        else response ++ "\n\n" ++ generateResponse d context
      | none => response
    let md : Metadata := { taskState := some taskState, handlerUsed := some handler.response }
    let md := if handler.show_progress == some true then { md with showProgress := some true } else md
    let md := if handler.show_summary == some true then { md with showSummary := some true } else md
    ({ success := true, response := some response, metadata := some md }, p, context)

/-- The expression a or b for optional strings with JS truthiness. -/
def jsStrOr (o : Option String) (d : String) : String :=
  match o with
  | none => d
  | some s => if s == "" then d else s

/-- executeBehaviorAction, in state-passing form. -/
def executeBehaviorAction (p : CommandParser) (steps : List String)
    (options : Option RuleOptions) (context : Context) :
    ActionResult × CommandParser × Context :=
  let verbosity :=
    jsStrOr (options.bind (fun o => o.verbosity))
      (jsStrOr (context.preferences.bind (fun s => s.verbosity)) "concise")
  ({ success := true
     response := some "Executing behavior steps"
     actions := some steps
     metadata := some { verbosity := some verbosity, options := options } }, p, context)

/-- executeMacroAction, in state-passing form. -/
def executeMacroAction (p : CommandParser) (steps : List String)
    (options : Option RuleOptions) (context : Context) :
    ActionResult × CommandParser × Context :=
  ({ success := true
     response := some ("Executing macro with " ++ toString steps.length ++ " steps")
     actions := some steps
     metadata := some { options := options } }, p, context)

/-- executeAction: dispatch on the action tag, in state-passing form. Every
branch is total, so the surrounding try/catch of the source is unreachable
and the method never raises. -/
def executeAction (p : CommandParser) (rule : PromptingRule) (context : Context) :
    ActionResult × CommandParser × Context :=
  match rule.action with
  | .contextualExecution handlers => executeCommandAction p handlers context
  | .behaviorAct steps options => executeBehaviorAction p steps options context
  | .macAction steps options => executeMacroAction p steps options context
  | .preferenceAct _ =>
    ({ success := true, response := some "Preferences applied" }, p, context)
  | .workflowAct steps _ =>
    ({ success := true, response := some "Workflow triggered", actions := some steps },
      p, context)
  | .otherAction typeName =>
    ({ success := false, error := some ("Unknown action type: " ++ typeName) }, p, context)

/-! ## Default bootstrap rules (RulesClient.createDefaultRules) -/

/-- The fixed default rule set createDefaultRules persists for a new user
(the Airtable round-trip assigns ids and echoes the data back; the rule data
itself is verbatim from the source). -/
def createDefaultRules (userId : String) : List PromptingRule :=
  [ { userId := userId
      ruleType := "COMMAND"
      trigger := "Go"
      contextPatterns := some [{ type := "task_state", value := "ready_to_proceed" }]
      action := .contextualExecution
        [("ready_to_proceed",
          { response := "execute_next_logical_step", show_progress := some true })]
      priority := 100
      isActive := true
      description := some "Execute next step when ready" },
    { userId := userId
      ruleType := "COMMAND"
      trigger := "Go"
      contextPatterns := some [{ type := "task_state", value := "blocked" }]
      action := .contextualExecution
        [("blocked",
          { response := "explain_blocking_reason",
            details := some "explain_what_user_must_do" })]
      priority := 95
      isActive := true
      description := some "Explain blocking reason when blocked" },
    { userId := userId
      ruleType := "COMMAND"
      trigger := "Done"
      action := .contextualExecution
        [("default",
          { response := "acknowledge_already_complete", show_summary := some true })]
      priority := 90
      isActive := true
      description := some "Acknowledge completion" },
    { userId := userId
      ruleType := "PREFERENCE"
      category := some "communication"
      trigger := "always"
      action := .preferenceAct
        { verbosity := some "concise"
          use_emojis := some false
          error_detail_level := some "full"
          proactive_suggestions := some true
          confirm_destructive_actions := some true }
      priority := 50
      isActive := true
      description := some "Default communication preferences" } ]

/-! ## ContextEngine pure transitions (src/services/context-engine.ts) -/

/-- updateTodoContext(todos): recompute the active and completed subsets and
derive the task state. -/
def updateTodoContext (c : Context) (todos : List Todo) : Context :=
  let active := todos.filter (fun t => t.status == "in_progress")
  let completed := todos.filter (fun t => t.status == "completed")
  let ts : TaskState :=
    if 0 < active.length then .in_progress
    else if completed.length = todos.length ∧ 0 < todos.length then .completed
    else .ready_to_proceed
  { c with
    todoList := some todos
    activeTodos := some active
    completedTodos := some completed
    taskState := ts }

/-- recordCommand(command): append to the history (cap 50, drop oldest), set
lastCommand, recompute the 10-item recent window from the capped history. -/
def recordCommand (c : Context) (command : String) : Context :=
  let history0 := (match c.commandHistory with | none => [] | some h => h) ++ [command]
  let history := if history0.length > 50 then history0.drop (history0.length - 50) else history0
  { c with
    commandHistory := some history
    lastCommand := some command
    recentCommands := some (history.drop (history.length - 10)) }

/-- inferTaskState: the best-guess heuristic over the snapshot. -/
def inferTaskState (c : Context) : TaskState :=
  if c.lastCommand.elim false (fun s => strIncludes (jsToLower s) "manual") then
    .waiting_for_user
  else if c.activeTodos.elim false (fun l => decide (0 < l.length)) then
    .in_progress
  else if (match c.todoList, c.completedTodos with
           | some tl, some cl => decide (0 < tl.length) && (cl.length == tl.length)
           | _, _ => false) then
    .completed
  else if c.hasUncommittedChanges == some true then
    .ready_to_proceed
  else
    .ready_to_proceed

/-- inferActivity: the best-guess heuristic from the file-type set. -/
def inferActivity (c : Context) : Option ActivityType :=
  if c.fileTypes.elim false
      (fun fts => fts.any (fun ft => ft == ".ts" || ft == ".js" || ft == ".py" || ft == ".go")) then
    some .coding
  else if c.fileTypes.elim false
      (fun fts => fts.any (fun ft => ft == ".md" || ft == ".txt")) then
    some .documenting
  else if c.fileTypes.elim false
      (fun fts => fts.any (fun ft => ft == ".test.ts" || ft == ".spec.ts")) then
    some .testing
  else
    none

/-- autoInfer: overwrite the inferred fields. -/
def autoInfer (c : Context) : Context :=
  { c with taskState := inferTaskState c, currentActivity := inferActivity c }

/-! ## MemoryClient.processCommand (src/services/memory-client.ts) -/

/-- The dispatch stage of processCommand given the context in effect at
match time: find the best rule and execute it, or fail with the
unknown-command error. -/
def runCommand (re : RegexEngine) (p : CommandParser) (input : String)
    (context : Context) : ActionResult :=
  match p.getBestMatch re (p.parse input) context with
  | none =>
    { success := false
      error := some ("Unknown command: \"" ++ input ++ "\". No matching rules found.") }
  | some rule => (executeAction p rule context).1

/-- processCommand(input): parse, refresh the context (collectContext is
asynchronous I/O, so the collected snapshot is a parameter; autoInfer and
recordCommand are then applied exactly as the source does), find the best
rule and execute it. Totality gives that no exception escapes. -/
def processCommand (re : RegexEngine) (p : CommandParser) (input : String)
    (collected : Context) : ActionResult :=
  let parsed := p.parse input
  let context := recordCommand (autoInfer collected) input
  match p.getBestMatch re parsed context with
  | none =>
    { success := false
      error := some ("Unknown command: \"" ++ input ++ "\". No matching rules found.") }
  | some rule => (executeAction p rule context).1

/-- A context holding nothing but the initial ready state (the Context
Engine seeds exactly this at construction). -/
def emptyContext : Context := { taskState := .ready_to_proceed }

/-- A context whose extension map flags the one-shot event named by the
literal key consisting of one opening parenthesis. -/
def eventCtx : Context :=
  { taskState := .ready_to_proceed,
    extra := fun k => if k = "(" then .vStr "true" else .vUndefined }

/-- A context whose extension map binds the key foo to the string foo and
the key custom to the string bar. -/
def customCtx : Context :=
  { taskState := .ready_to_proceed,
    extra := fun k =>
      if k = "foo" then .vStr "foo"
      else if k = "custom" then .vStr "bar"
      else .vUndefined }

/-- A rule whose contextual-execution handlers hold only the literal key
default (the shape of the bootstrap Done rule). -/
def defaultOnlyRule : PromptingRule :=
  { userId := "user"
    ruleType := "COMMAND"
    trigger := "Done"
    action := .contextualExecution
      [("default", { response := "acknowledge_already_complete", show_summary := some true })]
    priority := 90
    isActive := true }

/-! ## Supporting lemmas -/

/-- Every task-state string is nonempty, so the JS or-fallback inside
executeCommandAction never replaces it. -/
theorem taskState_str_ne_empty (t : TaskState) : (t.str == "") = false := by
  cases t <;> rfl

/-- executeCommandAction on a handlers map lacking the current task-state
key: the explicit failure result, parser and context unchanged. -/
theorem executeCommandAction_none (p : CommandParser) (handlers : List (String × Handler))
    (context : Context)
    (hn : lookupHandler handlers context.taskState.str = none) :
    executeCommandAction p handlers context =
      ({ success := false,
         error := some ("No handler for task state: " ++ context.taskState.str) },
        p, context) := by
  unfold executeCommandAction
  rw [taskState_str_ne_empty]
  simp only [Bool.false_eq_true, if_false, hn]

/-- The comparator with operator matches evaluates to false whenever the
expected string does not compile. -/
theorem compareValues_matches_compile_none (re : RegexEngine) (v : JSValue)
    (expected : String) (hc : re.compile (jsToLower expected) = none) :
    compareValues re v expected "matches" = false := by
  have h : compareValues re v expected "matches" =
      (match re.compile (jsToLower expected) with
       | some test => test (jsToLower (jsOrEmptyStr v))
       | none => false) := rfl
  rw [h, hc]

/-! ## Claim C1 -/

/-- Claim C1: with the default bootstrap rule set loaded, processing the
input Go in any context whose task state is ready_to_proceed succeeds: the
result has success true, its response is exactly the text the fixed template
table assigns to execute_next_logical_step, and metadata.showProgress is
true. -/
theorem go_ready_executes_next_step (u : String) (re : RegexEngine) (ctx : Context)
    (h : ctx.taskState = TaskState.ready_to_proceed) :
    (runCommand re (CommandParser.ofRules (createDefaultRules u)) "Go" ctx).success = true ∧
    (runCommand re (CommandParser.ofRules (createDefaultRules u)) "Go" ctx).response =
      some "Executing the next logical step..." ∧
    generateResponse "execute_next_logical_step" ctx = "Executing the next logical step..." ∧
    ((runCommand re (CommandParser.ofRules (createDefaultRules u)) "Go" ctx).metadata.bind
        (fun m => m.showProgress)) = some true := by
  obtain ⟨ts, a1, a2, a3, a4, a5, a6, a7, a8, a9, a10, a11⟩ := ctx
  have h2 : ts = TaskState.ready_to_proceed := h
  subst h2
  exact ⟨rfl, rfl, rfl, rfl⟩

/-- Witness for C1 at the seed context. -/
theorem go_ready_executes_next_step_witness :
    (runCommand noRegex (CommandParser.ofRules (createDefaultRules "user")) "Go"
        emptyContext).success = true ∧
    (runCommand noRegex (CommandParser.ofRules (createDefaultRules "user")) "Go"
        emptyContext).response = some "Executing the next logical step..." ∧
    generateResponse "execute_next_logical_step" emptyContext =
      "Executing the next logical step..." ∧
    ((runCommand noRegex (CommandParser.ofRules (createDefaultRules "user")) "Go"
        emptyContext).metadata.bind (fun m => m.showProgress)) = some true :=
  go_ready_executes_next_step "user" noRegex emptyContext rfl

/-! ## Claim C2 -/

/-- Claim C2: for every contextual-execution rule and every context,
executeAction looks the handler up by the literal current task-state string
only; if that key is absent the call fails with an error naming the missing
state, and this holds in particular when the handlers map does contain a
default key, which is never used as a fallback. -/
theorem executeAction_no_default_fallback (p : CommandParser) (rule : PromptingRule)
    (ctx : Context) (handlers : List (String × Handler))
    (ha : rule.action = RuleAction.contextualExecution handlers)
    (hn : lookupHandler handlers ctx.taskState.str = none) :
    (executeAction p rule ctx).1 =
      { success := false,
        error := some ("No handler for task state: " ++ ctx.taskState.str) } ∧
    (∀ hd : Handler, lookupHandler handlers "default" = some hd →
      (executeAction p rule ctx).1 =
        { success := false,
          error := some ("No handler for task state: " ++ ctx.taskState.str) }) := by
  have key : executeAction p rule ctx = executeCommandAction p handlers ctx := by
    unfold executeAction
    rw [ha]
  have hres := executeCommandAction_none p handlers ctx hn
  constructor
  · rw [key, hres]
  · intro hd _
    rw [key, hres]

/-- Witness for C2: the bootstrap Done rule (whose only handler key is
default) in the seed ready state. -/
theorem executeAction_no_default_fallback_witness :
    (executeAction (CommandParser.ofRules []) defaultOnlyRule emptyContext).1 =
      { success := false, error := some "No handler for task state: ready_to_proceed" } := by
  have h := (executeAction_no_default_fallback (CommandParser.ofRules []) defaultOnlyRule
      emptyContext
      [("default", { response := "acknowledge_already_complete", show_summary := some true })]
      rfl rfl).2
      { response := "acknowledge_already_complete", show_summary := some true } rfl
  rw [h]
  rfl

/-! ## Claim C3 -/

/-- Counterexample to claim C3: with the default bootstrap rule set loaded,
processing Done from the initial ready_to_proceed state does NOT succeed:
success is false and the error names the unhandled state, because the Done
rule stores its only handler under the literal key default, which the
executor never falls back to. -/
theorem done_fails_counterexample :
    (runCommand noRegex (CommandParser.ofRules (createDefaultRules "user")) "Done"
        emptyContext).success = false ∧
    (runCommand noRegex (CommandParser.ofRules (createDefaultRules "user")) "Done"
        emptyContext).error = some "No handler for task state: ready_to_proceed" := by
  exact ⟨rfl, rfl⟩

/-- Amended claim C3: with the default bootstrap rule set loaded, processing
Done from any context in the ready_to_proceed task state returns a failed
result whose error is the no-handler message naming ready_to_proceed; no
response and no metadata are produced. -/
theorem done_no_handler_for_ready (u : String) (re : RegexEngine) (ctx : Context)
    (h : ctx.taskState = TaskState.ready_to_proceed) :
    runCommand re (CommandParser.ofRules (createDefaultRules u)) "Done" ctx =
      { success := false, error := some "No handler for task state: ready_to_proceed" } := by
  obtain ⟨ts, a1, a2, a3, a4, a5, a6, a7, a8, a9, a10, a11⟩ := ctx
  have h2 : ts = TaskState.ready_to_proceed := h
  subst h2
  rfl

/-- Witness for the amended claim C3 at the seed context. -/
theorem done_no_handler_for_ready_witness :
    runCommand noRegex (CommandParser.ofRules (createDefaultRules "user")) "Done"
        emptyContext =
      { success := false, error := some "No handler for task state: ready_to_proceed" } :=
  done_no_handler_for_ready "user" noRegex emptyContext rfl

/-! ## Claim C6 -/

/-- Claim C6: whenever the trigger of the input has no candidate rule, or
every candidate fails its context patterns (stated below as: every candidate
in the trigger bucket fails the match predicate, which is vacuous for an
empty bucket), processCommand returns a failed result whose error message
contains the literal input text and states that no matching rules were
found. The embedding is total, so no exception can reach the caller. -/
theorem processCommand_no_match (re : RegexEngine) (loaded : List PromptingRule)
    (input : String) (collected : Context)
    (h : ∀ r ∈ commandMapGet (CommandParser.ofRules loaded)
            ((CommandParser.ofRules loaded).parse input).trigger,
          ruleMatches re r (recordCommand (autoInfer collected) input) = false) :
    processCommand re (CommandParser.ofRules loaded) input collected =
      { success := false,
        error := some ("Unknown command: \"" ++ input ++ "\". No matching rules found.") } ∧
    (∃ s t : String,
      ("Unknown command: \"" ++ input ++ "\". No matching rules found.") =
        s ++ input ++ t) := by
  have hfil : (commandMapGet (CommandParser.ofRules loaded)
        ((CommandParser.ofRules loaded).parse input).trigger).filter
        (fun rule => ruleMatches re rule (recordCommand (autoInfer collected) input)) = [] := by
    refine List.filter_eq_nil_iff.mpr ?_
    intro a ha
    rw [h a ha]
    exact Bool.false_ne_true
  have hm : (CommandParser.ofRules loaded).matchRules re
      ((CommandParser.ofRules loaded).parse input)
      (recordCommand (autoInfer collected) input) = [] := by
    unfold CommandParser.matchRules
    rw [hfil]
    rfl
  have hbest : (CommandParser.ofRules loaded).getBestMatch re
      ((CommandParser.ofRules loaded).parse input)
      (recordCommand (autoInfer collected) input) = none := by
    unfold CommandParser.getBestMatch
    rw [hm]
  refine ⟨?_, "Unknown command: \"", "\". No matching rules found.", rfl⟩
  have hdef : processCommand re (CommandParser.ofRules loaded) input collected =
      (match (CommandParser.ofRules loaded).getBestMatch re
          ((CommandParser.ofRules loaded).parse input)
          (recordCommand (autoInfer collected) input) with
       | none =>
         { success := false,
           error := some ("Unknown command: \"" ++ input ++ "\". No matching rules found.") }
       | some rule =>
         (executeAction (CommandParser.ofRules loaded) rule
           (recordCommand (autoInfer collected) input)).1) := rfl
  rw [hdef, hbest]

/-- Witness for C6: the gibberish input of spec property P4 against the
default bootstrap rules. -/
theorem processCommand_no_match_witness :
    processCommand noRegex (CommandParser.ofRules (createDefaultRules "user"))
        "zzgibberish" emptyContext =
      { success := false,
        error := some "Unknown command: \"zzgibberish\". No matching rules found." } := by
  have h := (processCommand_no_match noRegex (createDefaultRules "user")
      "zzgibberish" emptyContext (by decide)).1
  rw [h]
  rfl

/-! ## Claim C10 -/

/-- executeCommandAction returns the parser and the context unchanged. -/
theorem executeCommandAction_frame (p : CommandParser) (handlers : List (String × Handler))
    (context : Context) : (executeCommandAction p handlers context).2 = (p, context) := by
  unfold executeCommandAction
  rw [taskState_str_ne_empty]
  simp only [Bool.false_eq_true, if_false]
  rcases h : lookupHandler handlers context.taskState.str with _ | hd <;> simp only [h]

/-- Claim C10: executeAction returns its result without mutating the context
snapshot (every field is unchanged, for all action variants, including the
preference variant, whose settings are not merged into the context by the
executor) and without touching the parser state (rule list, and hence the
derived trigger index). -/
theorem executeAction_frame (p : CommandParser) (rule : PromptingRule) (ctx : Context) :
    (executeAction p rule ctx).2.1 = p ∧ (executeAction p rule ctx).2.2 = ctx := by
  have h : (executeAction p rule ctx).2 = (p, ctx) := by
    obtain ⟨i, u, rt, cat, trig, cps, act, pri, ia, d⟩ := rule
    cases act with
    | contextualExecution handlers => exact executeCommandAction_frame p handlers ctx
    | behaviorAct steps options => rfl
    | macAction steps options => rfl
    | preferenceAct settings => rfl
    | workflowAct steps options => rfl
    | otherAction typeName => rfl
  exact ⟨by rw [h], by rw [h]⟩

/-! ## Claim C7 -/

/-- Counterexample to claim C7 as stated for ALL pattern kinds: an event
pattern whose expected string is the single opening parenthesis (an invalid
regular expression: jsRegexLite.compile on it returns none, as the JS RegExp
constructor throws on it) evaluates to true in a context that flags that
event, because the event branch uses the expected string as a context key
and compiles the literal regex true instead. -/
theorem matches_invalid_regex_counterexample :
    matchesContextPattern jsRegexLite
        { type := "event", value := "(", operator := some "matches" } eventCtx = true ∧
    jsRegexLite.compile (jsToLower "(") = none := by
  exact ⟨rfl, rfl⟩

/-- Amended claim C7: for every context pattern of kind task_state, activity,
file_type or custom (every kind except event, whose expected string is used
as a context key rather than compiled) with operator matches and an expected
string that does not compile, evaluating the pattern returns false for every
context; the embedding is total, so nothing is thrown. -/
theorem matches_invalid_regex_is_false (re : RegexEngine) (pat : ContextPattern)
    (ctx : Context) (hop : pat.operator = some "matches") (hty : pat.type ≠ "event")
    (hc : re.compile (jsToLower pat.value) = none) :
    matchesContextPattern re pat ctx = false := by
  obtain ⟨pt, pv, pop⟩ := pat
  simp only at hop hty hc
  subst hop
  have heff : effectiveOperator (some "matches") = "matches" := rfl
  unfold matchesContextPattern
  rw [heff]
  by_cases h1 : pt = "task_state"
  · simp only [h1, beq_self_eq_true, if_true]
    exact compareValues_matches_compile_none re _ pv hc
  · rw [if_neg (by simpa using h1)]
    by_cases h2 : pt = "activity"
    · simp only [h2, beq_self_eq_true, if_true]
      exact compareValues_matches_compile_none re _ pv hc
    · rw [if_neg (by simpa using h2)]
      by_cases h3 : pt = "file_type"
      · simp only [h3, beq_self_eq_true, if_true]
        rcases ctx.fileTypes with _ | fts
        · rfl
        · rw [List.any_eq_false]
          intro ft _
          rw [compareValues_matches_compile_none re _ pv hc]
          exact Bool.false_ne_true
      · rw [if_neg (by simpa using h3)]
        rw [if_neg (by simpa using hty)]
        by_cases h5 : pt = "custom"
        · simp only [h5, beq_self_eq_true, if_true]
          exact compareValues_matches_compile_none re _ pv hc
        · rw [if_neg (by simpa using h5)]

/-- Witness for the amended claim C7: a task-state pattern whose expected
string is the invalid regex consisting of one opening parenthesis. -/
theorem matches_invalid_regex_is_false_witness :
    matchesContextPattern noRegex
      { type := "task_state", value := "(", operator := some "matches" } emptyContext = false :=
  matches_invalid_regex_is_false noRegex
    { type := "task_state", value := "(", operator := some "matches" } emptyContext
    rfl (by decide) rfl

/-! ## Claim C9 -/

/-- Counterexample to claim C9: a custom pattern expecting foo, in a context
whose extension map binds foo to foo and custom to bar. The comparator
applied to the value under the expected key foo (as the claim prescribes)
yields true, yet the pattern evaluates to false, because the code reads
context under the literal key custom (the pattern kind string) instead. -/
theorem custom_pattern_counterexample :
    matchesContextPattern noRegex { type := "custom", value := "foo" } customCtx = false ∧
    compareValues noRegex (customCtx.lookup "foo") "foo" "equals" = true := by
  exact ⟨rfl, rfl⟩

/-- Amended claim C9: a custom pattern applies the configured comparator to
the value stored in the context under the literal key custom (the kind
string of the pattern), against the expected string; an event pattern, by
contrast, reads the context under the expected string itself and compares it
against the literal string true. -/
theorem custom_pattern_reads_kind_key (re : RegexEngine) (ctx : Context)
    (value : String) (op : Option String) :
    matchesContextPattern re { type := "custom", value := value, operator := op } ctx =
      compareValues re (ctx.lookup "custom") value (effectiveOperator op) ∧
    matchesContextPattern re { type := "event", value := value, operator := op } ctx =
      compareValues re (ctx.lookup value) "true" (effectiveOperator op) := by
  exact ⟨rfl, rfl⟩

/-! ## Claim C8 -/

/-- The filtered list is nonempty exactly when some element passes. -/
theorem length_filter_pos_iff_any {α : Type} (p : α → Bool) (l : List α) :
    0 < (l.filter p).length ↔ l.any p = true := by
  induction l with
  | nil => simp
  | cons x xs ih =>
    by_cases hx : p x <;> simp [List.filter_cons, hx, ih]

/-- The filtered list keeps the full length exactly when every element
passes. -/
theorem length_filter_eq_iff_all {α : Type} (p : α → Bool) (l : List α) :
    ((l.filter p).length = l.length) ↔ l.all p = true := by
  induction l with
  | nil => simp
  | cons x xs ih =>
    by_cases hx : p x
    · simp [List.filter_cons, hx, ih]
    · simp only [List.filter_cons, hx, if_false, List.length_cons, List.all_cons,
        Bool.false_and, Bool.false_eq_true, iff_false]
      intro hlen
      have hle := List.length_filter_le p xs
      omega

/-- Claim C8: updateTodoContext sets activeTodos to the in-progress items,
completedTodos to the completed items, and derives the task state by the
fixed priority rule: in_progress when any todo is in progress, else
completed when the list is nonempty and every item is completed, else
ready_to_proceed. -/
theorem updateTodoContext_spec (c : Context) (todos : List Todo) :
    (updateTodoContext c todos).activeTodos =
      some (todos.filter (fun t => t.status == "in_progress")) ∧
    (updateTodoContext c todos).completedTodos =
      some (todos.filter (fun t => t.status == "completed")) ∧
    (updateTodoContext c todos).taskState =
      (if todos.any (fun t => t.status == "in_progress") = true then TaskState.in_progress
       else if todos ≠ [] ∧ todos.all (fun t => t.status == "completed") = true then
         TaskState.completed
       else TaskState.ready_to_proceed) := by
  refine ⟨rfl, rfl, ?_⟩
  have hcond2 :
      ((todos.filter (fun t => t.status == "completed")).length = todos.length ∧
        0 < todos.length) ↔
      (todos ≠ [] ∧ todos.all (fun t => t.status == "completed") = true) := by
    rw [length_filter_eq_iff_all, List.length_pos]
    tauto
  have hdef : (updateTodoContext c todos).taskState =
      (if 0 < (todos.filter (fun t => t.status == "in_progress")).length then
         TaskState.in_progress
       else if (todos.filter (fun t => t.status == "completed")).length = todos.length ∧
           0 < todos.length then TaskState.completed
       else TaskState.ready_to_proceed) := rfl
  rw [hdef, if_congr (length_filter_pos_iff_any _ _) rfl (if_congr hcond2 rfl rfl)]

/-! ## Claim C4 -/

/-- The candidate filter holds exactly when the pattern list is absent,
empty, or pointwise true. -/
theorem ruleMatches_iff (re : RegexEngine) (rule : PromptingRule) (ctx : Context) :
    ruleMatches re rule ctx = true ↔
      (rule.contextPatterns = none ∨ rule.contextPatterns = some [] ∨
       ∀ q ∈ rule.contextPatterns.getD [], matchesContextPattern re q ctx = true) := by
  rcases hcp : rule.contextPatterns with _ | ps
  · simp [ruleMatches, hcp]
  · rcases ps with _ | ⟨q0, qs⟩
    · simp [ruleMatches, hcp]
    · simp [ruleMatches, hcp, List.all_eq_true]

/-- Claim C4: a rule reachable by its trigger is counted as a match by
matchRules exactly when its context-pattern list is absent, empty, or every
one of its patterns evaluates true against the context; and appending any
failing pattern to a previously-matching rule makes it not match. -/
theorem matchRules_and_semantics (re : RegexEngine) (loaded : List PromptingRule)
    (parsed : ParsedCommand) (ctx : Context) (rule : PromptingRule) :
    (rule ∈ (CommandParser.ofRules loaded).matchRules re parsed ctx ↔
      rule ∈ commandMapGet (CommandParser.ofRules loaded) parsed.trigger ∧
        (rule.contextPatterns = none ∨ rule.contextPatterns = some [] ∨
         ∀ q ∈ rule.contextPatterns.getD [], matchesContextPattern re q ctx = true)) ∧
    (∀ q : ContextPattern,
      ruleMatches re rule ctx = true →
      matchesContextPattern re q ctx = false →
      ruleMatches re
        { rule with contextPatterns := some (rule.contextPatterns.getD [] ++ [q]) }
        ctx = false) := by
  constructor
  · unfold CommandParser.matchRules sortByPriorityDesc
    rw [List.mem_insertionSort, List.mem_filter, ruleMatches_iff]
  · intro q _ hq
    rcases hcp : rule.contextPatterns with _ | ps
    · simp [ruleMatches, hcp, hq]
    · simp [ruleMatches, hcp, List.all_append, hq]

/-! ## Claim C5 -/

/-- Stability of one insertion step: filtering by a predicate that pins the
priority to a fixed value commutes with the ordered insertion, because the
insertion point of x lies after exactly the elements of strictly greater
priority, none of which the predicate can select. -/
theorem filter_orderedInsert_priority (q : Int) (P : PromptingRule → Bool)
    (hP : ∀ r, P r = true → r.priority = q) (x : PromptingRule) :
    ∀ l : List PromptingRule,
      (List.orderedInsert ruleLE x l).filter P =
        if P x then x :: l.filter P else l.filter P
  | [] => by
    by_cases hPx : P x <;> simp [List.orderedInsert, List.filter, hPx]
  | b :: t => by
    by_cases hxb : ruleLE x b
    · rw [List.orderedInsert, if_pos hxb]
      by_cases hPx : P x <;> simp [List.filter_cons, hPx]
    · rw [List.orderedInsert, if_neg hxb]
      have ih := filter_orderedInsert_priority q P hP x t
      by_cases hPx : P x
      · have hPb : P b = false := by
          rcases hb : P b with _ | _
          · rfl
          · exfalso
            apply hxb
            show b.priority ≤ x.priority
            rw [hP b hb, hP x hPx]
        simp [List.filter_cons, hPb, hPx, ih]
      · by_cases hPb : P b <;> simp [List.filter_cons, hPb, hPx, ih]

/-- Stability of the stable descending-priority sort: the sublist of
elements selected by a fixed-priority predicate is exactly the corresponding
sublist of the input, in input order. -/
theorem filter_sortByPriorityDesc (q : Int) (P : PromptingRule → Bool)
    (hP : ∀ r, P r = true → r.priority = q) :
    ∀ l : List PromptingRule, (sortByPriorityDesc l).filter P = l.filter P
  | [] => rfl
  | x :: t => by
    have ih : List.filter P (List.insertionSort ruleLE t) = List.filter P t :=
      filter_sortByPriorityDesc q P hP t
    show ((List.insertionSort ruleLE t).orderedInsert ruleLE x).filter P = _
    rw [filter_orderedInsert_priority q P hP x (List.insertionSort ruleLE t)]
    by_cases hPx : P x <;> simp [List.filter_cons, hPx, ih]

/-- Claim C5: matchRules returns the matching rules sorted by descending
priority; getBestMatch is its first element (none when empty), so any match
it returns has maximal priority among the matches (in particular a
priority-100 candidate is returned over a priority-50 one); and for every
priority level the matches of that priority appear exactly as in the loaded
rule list (the stable sort preserves load order among equal priorities, with
no further tie-break). -/
theorem matchRules_priority_order (re : RegexEngine) (loaded : List PromptingRule)
    (parsed : ParsedCommand) (ctx : Context) :
    ((CommandParser.ofRules loaded).matchRules re parsed ctx).Pairwise
      (fun a b => b.priority ≤ a.priority) ∧
    (CommandParser.ofRules loaded).getBestMatch re parsed ctx =
      ((CommandParser.ofRules loaded).matchRules re parsed ctx).head? ∧
    (∀ a ∈ (CommandParser.ofRules loaded).matchRules re parsed ctx,
      ∀ b, (CommandParser.ofRules loaded).getBestMatch re parsed ctx = some b →
        a.priority ≤ b.priority) ∧
    (∀ q : Int,
      ((CommandParser.ofRules loaded).matchRules re parsed ctx).filter
          (fun r => r.priority == q) =
        (((loaded.filter (fun r => r.isActive)).filter
            (fun r => jsToLower r.trigger == parsed.trigger)).filter
          (fun r => ruleMatches re r ctx)).filter (fun r => r.priority == q)) := by
  have hsorted : ((CommandParser.ofRules loaded).matchRules re parsed ctx).Pairwise ruleLE :=
    List.sorted_insertionSort ruleLE _
  have hbest : (CommandParser.ofRules loaded).getBestMatch re parsed ctx =
      ((CommandParser.ofRules loaded).matchRules re parsed ctx).head? := by
    unfold CommandParser.getBestMatch
    rcases (CommandParser.ofRules loaded).matchRules re parsed ctx with _ | ⟨r, t⟩ <;> rfl
  refine ⟨hsorted, hbest, ?_, ?_⟩
  · intro a ha b hb
    rw [hbest] at hb
    rcases hms : (CommandParser.ofRules loaded).matchRules re parsed ctx with _ | ⟨r, t⟩
    · rw [hms] at ha
      exact absurd ha (List.not_mem_nil a)
    · rw [hms] at ha hb hsorted
      have hrb : r = b := by
        simpa using hb
      subst hrb
      rcases List.mem_cons.mp ha with rfl | hat
      · exact le_refl _
      · exact (List.pairwise_cons.mp hsorted).1 a hat
  · intro q
    have hP : ∀ r : PromptingRule, (r.priority == q) = true → r.priority = q := by
      intro r hr
      simpa using hr
    have step1 :
        ((CommandParser.ofRules loaded).matchRules re parsed ctx).filter
            (fun r => r.priority == q) =
          ((commandMapGet (CommandParser.ofRules loaded) parsed.trigger).filter
              (fun rule => ruleMatches re rule ctx)).filter (fun r => r.priority == q) :=
      filter_sortByPriorityDesc q _ hP _
    have step2 :
        commandMapGet (CommandParser.ofRules loaded) parsed.trigger =
          (sortByPriorityDesc (loaded.filter (fun r => r.isActive))).filter
            (fun r => jsToLower r.trigger == parsed.trigger) := rfl
    rw [step1, step2]
    have h1 :
        List.filter (fun r : PromptingRule => r.priority == q)
            (List.filter (fun rule => ruleMatches re rule ctx)
              (List.filter (fun r => jsToLower r.trigger == parsed.trigger)
                (sortByPriorityDesc (List.filter (fun r => r.isActive) loaded)))) =
          List.filter (fun rule => ruleMatches re rule ctx)
            (List.filter (fun r : PromptingRule => r.priority == q)
              (List.filter (fun r => jsToLower r.trigger == parsed.trigger)
                (sortByPriorityDesc (List.filter (fun r => r.isActive) loaded)))) :=
      List.filter_comm _ _ _
    have h2 :
        List.filter (fun r : PromptingRule => r.priority == q)
            (List.filter (fun r => jsToLower r.trigger == parsed.trigger)
              (sortByPriorityDesc (List.filter (fun r => r.isActive) loaded))) =
          List.filter (fun r => jsToLower r.trigger == parsed.trigger)
            (List.filter (fun r : PromptingRule => r.priority == q)
              (sortByPriorityDesc (List.filter (fun r => r.isActive) loaded))) :=
      List.filter_comm _ _ _
    have h3 :
        List.filter (fun r : PromptingRule => r.priority == q)
            (sortByPriorityDesc (List.filter (fun r => r.isActive) loaded)) =
          List.filter (fun r : PromptingRule => r.priority == q)
            (List.filter (fun r => r.isActive) loaded) :=
      filter_sortByPriorityDesc q _ hP _
    have h4 :
        List.filter (fun r : PromptingRule => r.priority == q)
            (List.filter (fun r => jsToLower r.trigger == parsed.trigger)
              (List.filter (fun r => r.isActive) loaded)) =
          List.filter (fun r => jsToLower r.trigger == parsed.trigger)
            (List.filter (fun r : PromptingRule => r.priority == q)
              (List.filter (fun r => r.isActive) loaded)) :=
      List.filter_comm _ _ _
    have h5 :
        List.filter (fun r : PromptingRule => r.priority == q)
            (List.filter (fun rule => ruleMatches re rule ctx)
              (List.filter (fun r => jsToLower r.trigger == parsed.trigger)
                (List.filter (fun r => r.isActive) loaded))) =
          List.filter (fun rule => ruleMatches re rule ctx)
            (List.filter (fun r : PromptingRule => r.priority == q)
              (List.filter (fun r => jsToLower r.trigger == parsed.trigger)
                (List.filter (fun r => r.isActive) loaded))) :=
      List.filter_comm _ _ _
    rw [h1, h2, h3, ← h4, ← h5]
